import Mathlib

/-!
Verification of the syscall-interception layer of `guardian-agent`
(`src/libaba/hooks.cc`) against its natural-language specification.

The C++ source is shallowly embedded: protobuf messages become Lean
structures, in-place mutation becomes functional update, OS interactions
(the real syscall, `openat`, `read_symlink`, `getenv`, socket connect and
reads) become explicit environment records, and C++ exceptions become
`Except` values.  Syscall numbers and errno values are the Linux x86-64
ones used by the compiled program.
-/

namespace GuardianAgent

/-! ### Platform constants (Linux x86-64) -/

def SYS_open : Int := 2
def SYS_openat : Int := 257
def SYS_unlink : Int := 87
def SYS_unlinkat : Int := 263
def SYS_access : Int := 21
def SYS_faccessat : Int := 269
def SYS_socket : Int := 41
def SYS_bind : Int := 49

def AT_FDCWD : Int := -100
def EACCES : Int := 13
def EPERM : Int := 1
def X_OK : Int := 1

/-- `fs::perms::owner_exec` bit (0o100). -/
def owner_exec : Nat := 64
/-- `fs::perms::group_exec` bit (0o10). -/
def group_exec : Nat := 8
/-- `fs::perms::others_exec` bit (0o1). -/
def others_exec : Nat := 1

/-! ### Data model: the `Operation` protobuf message (guardo.pb.h)

`DirFd` is a oneof over a raw descriptor and an absolute path; `set_path`
switches a raw-descriptor `DirFd` to the path form.  A `Socket` argument
carries an optional embedded fd (`clear_fd` removes it, modelled as
`none`; the protobuf getter of a cleared field returns 0). -/

inductive DirFd where
  | fd (n : Int)
  | path (p : String)
deriving DecidableEq

inductive Arg where
  | intArg (n : Int)
  | stringArg (s : String)
  | bytesArg (b : List Nat)
  | dirFdArg (d : DirFd)
  | socketArg (fd : Option Int)
deriving DecidableEq

structure Operation where
  syscall_num : Int
  args : List Arg
deriving DecidableEq

/-! ### Operation encoders (`create_*_op` in hooks.cc)

Each encoder appends `Arg` entries to the operation in syscall-argument
order, exactly as the C++ `op->add_args()` chains do. -/

def create_open_op (dir_fd : Int) (path : String) (flags mode : Int)
    (op : Operation) : Operation :=
  { op with args := op.args ++
      [Arg.dirFdArg (DirFd.fd dir_fd), Arg.stringArg path,
       Arg.intArg flags, Arg.intArg mode] }

def create_unlink_op (dir_fd : Int) (path : String) (flags : Int)
    (op : Operation) : Operation :=
  { op with args := op.args ++
      [Arg.dirFdArg (DirFd.fd dir_fd), Arg.stringArg path, Arg.intArg flags] }

/-- The exec-bit test in `create_access_op`: `fs::status(path).permissions()`
has none of owner/group/others exec set. -/
def noExecBits (p : Nat) : Bool :=
  (p &&& owner_exec == 0) && (p &&& group_exec == 0) && (p &&& others_exec == 0)

/-- `create_access_op` returns `false` (do not elevate) for an `X_OK`-mode
check on a path with no exec bit at all; otherwise it appends the four
arguments and returns `true`.  `perms` stands for
`fs::status(path).permissions()`. -/
def create_access_op (perms : String → Nat) (dir_fd : Int) (path : String)
    (mode flags : Int) (op : Operation) : Bool × Operation :=
  if mode = X_OK ∧ noExecBits (perms path) = true then
    (false, op)
  else
    (true, { op with args := op.args ++
      [Arg.dirFdArg (DirFd.fd dir_fd), Arg.stringArg path,
       Arg.intArg mode, Arg.intArg flags] })

def create_socket_op (domain type_ protocol : Int) (op : Operation) : Operation :=
  { op with args := op.args ++
      [Arg.intArg domain, Arg.intArg type_, Arg.intArg protocol] }

def create_bind_op (sockfd : Int) (addr : List Nat) (op : Operation) : Operation :=
  { op with args := op.args ++
      [Arg.socketArg (some sockfd), Arg.bytesArg addr] }

/-! ### FD resolver (`marshal_fds`)

Environment: `cwdPath` is `fs::current_path()`, `dupCwdFd` the value
`openat(AT_FDCWD, ".", O_RDONLY, 0)` would return (negative = failure),
`procFdLink n` the result of `fs::read_symlink("/proc/self/fd/" + n)`
(`none` = the call throws).  The walk threads the lazily created
`fd_cwd` handle (`Option Int`) and additionally counts how many times the
duplication `openat` ran, so laziness is observable in the model. -/

structure FdEnv where
  cwdPath : String
  dupCwdFd : Int
  procFdLink : Int → Option String

def marshal_args (env : FdEnv) : Option Int → List Arg →
    Except String (List Arg × List Int × Option Int × Nat)
  | fdCwd, [] => .ok ([], [], fdCwd, 0)
  | fdCwd, a :: rest =>
    match a with
    | Arg.dirFdArg (DirFd.fd n) =>
      if n = AT_FDCWD then
        match fdCwd with
        | some f =>
          match marshal_args env (some f) rest with
          | .error e => .error e
          | .ok (as, fds, c, d) =>
            .ok (Arg.dirFdArg (DirFd.path env.cwdPath) :: as, f :: fds, c, d)
        | none =>
          if env.dupCwdFd < 0 then .error "Failed to duplicate AT_FDCWD"
          else
            match marshal_args env (some env.dupCwdFd) rest with
            | .error e => .error e
            | .ok (as, fds, c, d) =>
              .ok (Arg.dirFdArg (DirFd.path env.cwdPath) :: as,
                   env.dupCwdFd :: fds, c, d + 1)
      else
        match env.procFdLink n with
        | none => .error "filesystem error in read_symlink"
        | some p =>
          match marshal_args env fdCwd rest with
          | .error e => .error e
          | .ok (as, fds, c, d) =>
            .ok (Arg.dirFdArg (DirFd.path p) :: as, n :: fds, c, d)
    | Arg.socketArg s =>
      match marshal_args env fdCwd rest with
      | .error e => .error e
      | .ok (as, fds, c, d) =>
        .ok (Arg.socketArg none :: as, s.getD 0 :: fds, c, d)
    | other =>
      match marshal_args env fdCwd rest with
      | .error e => .error e
      | .ok (as, fds, c, d) => .ok (other :: as, fds, c, d)

/-- `marshal_fds(op, &fds)`: rewrites the operation in place and returns
the transplant list, the (optional) duplicated-cwd handle and the number
of times the duplication ran. -/
def marshal_fds (env : FdEnv) (op : Operation) :
    Except String (Operation × List Int × Option Int × Nat) :=
  match marshal_args env none op.args with
  | .error e => .error e
  | .ok (as, fds, c, d) => .ok ({ op with args := as }, fds, c, d)

/-- How one argument looks after a successful `marshal_fds` walk. -/
def rewriteArg (env : FdEnv) : Arg → Arg
  | Arg.dirFdArg (DirFd.fd n) =>
    Arg.dirFdArg (DirFd.path
      (if n = AT_FDCWD then env.cwdPath else (env.procFdLink n).getD ""))
  | Arg.socketArg _ => Arg.socketArg none
  | a => a

/-- The raw descriptor an argument contributes to the transplant list
(`none` when it contributes nothing). -/
def transplantValue (env : FdEnv) : Arg → Option Int
  | Arg.dirFdArg (DirFd.fd n) => some (if n = AT_FDCWD then env.dupCwdFd else n)
  | Arg.socketArg s => some (s.getD 0)
  | _ => none

/-- Is this argument a raw-descriptor `DirFd` holding the CWD sentinel? -/
def isRawCwd : Arg → Bool
  | Arg.dirFdArg (DirFd.fd n) => n = AT_FDCWD
  | _ => false

/-- Does the argument still expose a raw descriptor (an unresolved
`DirFdArg` or an inline socket fd)? -/
def hasRawFd : Arg → Bool
  | Arg.dirFdArg (DirFd.fd _) => true
  | Arg.socketArg (some _) => true
  | _ => false

/-! ### Runtime directory (`user_runtime_dir`)

`getenv` results are `Option String`.  When both variables are unset the
C++ constructs `std::string(nullptr)` — undefined behavior — modelled as
`none` (no well-defined result). -/

def user_runtime_dir (xdg home : Option String) : Option String :=
  let dir := match xdg with
    | none => home
    | some d => some d
  match dir with
  | none => none
  | some d => some d

/-- Fixed file name of the agent socket inside the runtime directory. -/
def AGENT_GUARD_SOCK_NAME : String := ".agent-guard-sock"

/-- The agent socket path built in `get_credential`:
`user_runtime_dir() / AGENT_GUARD_SOCK_NAME`. -/
def agent_sock_path (runtimeDir : String) : String :=
  runtimeDir ++ "/" ++ AGENT_GUARD_SOCK_NAME

/-! ### Wire framing (`create_raw_msg` / `read_expected_msg`)

Byte strings are `List Nat` with each entry taken mod 256 where the C++
stores a `char`.  `htonl`/`ntohl` on the little-endian target produce and
consume 4-byte big-endian words. -/

/-- 4-byte big-endian encoding of `n mod 2^32` (`htonl` store). -/
def be32 (n : Nat) : List Nat :=
  [n / 2 ^ 24 % 256, n / 2 ^ 16 % 256, n / 2 ^ 8 % 256, n % 256]

/-- Recombine 4 bytes big-endian (`ntohl` load); 0 on a malformed buffer. -/
def be32ToNat : List Nat → Nat
  | [b0, b1, b2, b3] =>
    b0 % 256 * 2 ^ 24 + b1 % 256 * 2 ^ 16 + b2 % 256 * 2 ^ 8 + b3 % 256
  | _ => 0

/-- The value of the signed `char` holding byte `b`, as the `int` it
promotes to in a comparison (x86-64 Linux: `char` is signed). -/
def signedChar (b : Nat) : Int :=
  if b % 256 < 128 then (b % 256 : Int) else (b % 256 : Int) - 256

/-- The `int packet_len` obtained from `ntohl` of 4 bytes. -/
def ntohlInt (buf : List Nat) : Int :=
  let v := be32ToNat buf
  if v < 2 ^ 31 then (v : Int) else (v : Int) - 2 ^ 32

/-- The `size_t` a signed `int` converts to when passed to `read_full`. -/
def intToSizeT (i : Int) : Nat := (i % (2 : Int) ^ 64).toNat

/-- Modelled from the spec: `FileDescriptor::read_full` (socket.hh, not
under src/) reads exactly `k` bytes from the stream, blocking until
satisfied, and raises an error when the connection closes first. -/
def read_full (k : Nat) (s : List Nat) : Except String (List Nat × List Nat) :=
  if s.length < k then .error "read_full: connection closed"
  else .ok (s.take k, s.drop k)

/-- `create_raw_msg`: a 5-byte zeroed buffer gets the tag at offset 4,
the serialized payload appended, and `htonl(size - 4)` written over the
first four bytes, yielding
`[4-byte BE (payload length + 1)][tag][payload]`. -/
def create_raw_msg (msg_num : Nat) (payload : List Nat) : List Nat :=
  be32 ((payload.length + 1) % 2 ^ 32) ++ [msg_num % 256] ++ payload

/-- `read_expected_msg` over a byte stream: read the 4-byte length, read
that many bytes, compare the first byte (a signed `char`) with the
expected tag (an `unsigned char`), and parse the rest.  `.ok none` is the
C++ `return false`; `.error` is a thrown exception (`read_full` EOF, or
`substr(1)` on an empty packet). -/
def read_expected_msg {α : Type} (parse : List Nat → Option α)
    (expected : Nat) (s : List Nat) : Except String (Option α) :=
  match read_full 4 s with
  | .error e => .error e
  | .ok (lenBuf, s1) =>
    let packet_len : Int := ntohlInt lenBuf
    match read_full (intToSizeT packet_len) s1 with
    | .error e => .error e
    | .ok (packet, _) =>
      match packet with
      | [] =>
        if signedChar 0 ≠ (expected % 256 : Int) then .ok none
        else .error "substr: out of range"
      | b :: rest =>
        if signedChar b ≠ (expected % 256 : Int) then .ok none
        else
          match parse rest with
          | none => .ok none
          | some m => .ok (some m)

/-! ### Protocol messages and negotiation environment

Tags (`CHALLENGE_REQUEST`, ... from guardo.pb.h, not under src/) and the
protobuf payloads are abstract here; transport outcomes of the three
reads are supplied by the environment.  `ReadOutcome.threw` models an
exception escaping `read_expected_msg` (e.g. `read_full` hitting EOF),
`ReadOutcome.failed` its `false` return. -/

inductive Endpoint where
  | guardo
  | agent
deriving DecidableEq

inductive MsgTag where
  | challengeRequest
  | challengeResponse
  | credentialRequest
  | credentialResponse
  | elevationRequest
  | elevationResponse
deriving DecidableEq

inductive ReadOutcome (α : Type) where
  | threw (e : String)
  | failed
  | got (m : α)
deriving DecidableEq

structure Challenge where
  data : Nat
deriving DecidableEq

structure Credential where
  data : Nat
deriving DecidableEq

inductive CredStatus where
  | approved
  | other (code : Nat)
deriving DecidableEq

structure CredentialResponse where
  status : CredStatus
  credential : Credential
deriving DecidableEq

structure ElevationResponse where
  is_result_fd : Bool
  result : Int
deriving DecidableEq

structure NegEnv where
  fdEnv : FdEnv
  perms : String → Nat
  readString : Int → String
  readBytes : Int → Int → List Nat
  connectGuardoOk : Bool
  connectAgentOk : Bool
  challengeRead : ReadOutcome Challenge
  credRead : ReadOutcome CredentialResponse
  elevRead : ReadOutcome (ElevationResponse × List Int)

/-- `get_credential`: connect to the agent socket (a throw on failure),
send the `CredentialRequest`, read the `CredentialResponse`; `false`
(here `.ok none`) unless the response was read and its status is
`APPROVED`.  Returns the messages sent alongside the outcome. -/
def get_credential (env : NegEnv) (_op : Operation) (_ch : Challenge) :
    List (Endpoint × MsgTag) × Except String (Option Credential) :=
  if env.connectAgentOk = false then
    ([], .error "connect to agent sock failed")
  else
    let sent : List (Endpoint × MsgTag) := [(Endpoint.agent, MsgTag.credentialRequest)]
    match env.credRead with
    | .threw e => (sent, .error e)
    | .failed => (sent, .ok none)
    | .got resp =>
      if resp.status = CredStatus.approved then (sent, .ok (some resp.credential))
      else (sent, .ok none)

/-- The `switch (syscall_number)` of `hook` (lines 211-240): which
syscalls it can encode.  `arg4`/`arg5` are unused by the source
(`__attribute__((unused))`). -/
def build_op (env : NegEnv) (n a0 a1 a2 a3 : Int) : Option (Bool × Operation) :=
  let op0 : Operation := { syscall_num := n, args := [] }
  if n = SYS_open then some (true, create_open_op AT_FDCWD (env.readString a0) a1 a2 op0)
  else if n = SYS_openat then some (true, create_open_op a0 (env.readString a1) a2 a3 op0)
  else if n = SYS_unlink then some (true, create_unlink_op AT_FDCWD (env.readString a0) 0 op0)
  else if n = SYS_unlinkat then some (true, create_unlink_op a0 (env.readString a1) a2 op0)
  else if n = SYS_access then some (create_access_op env.perms AT_FDCWD (env.readString a0) a1 0 op0)
  else if n = SYS_faccessat then some (create_access_op env.perms a0 (env.readString a1) a2 a3 op0)
  else if n = SYS_socket then some (true, create_socket_op a0 a1 a2 op0)
  else if n = SYS_bind then some (true, create_bind_op a0 (env.readBytes a1 a2) op0)
  else none

/-- The set of syscalls `hook`'s switch handles (everything but its
`default` case). -/
def hook_handles (n : Int) : Bool :=
  n = SYS_open || n = SYS_openat || n = SYS_unlink || n = SYS_unlinkat ||
  n = SYS_access || n = SYS_faccessat || n = SYS_socket || n = SYS_bind

/-- `hook`: encode the operation, marshal descriptors, then run the
challenge / credential / elevation exchanges.  First component: the
messages sent, in order, with their endpoint.  Second component:
`.ok (some v)` when `*result` is overwritten with `v`, `.ok none` when
`hook` returns leaving `*result` alone, `.error` when an exception
escapes `hook` (to be caught in `safe_hook`). -/
def hook (env : NegEnv) (n a0 a1 a2 a3 : Int) :
    List (Endpoint × MsgTag) × Except String (Option Int) :=
  match build_op env n a0 a1 a2 a3 with
  | none => ([], .ok none)
  | some (should_hook, op) =>
    if should_hook = false then ([], .ok none)
    else
      match marshal_fds env.fdEnv op with
      | .error e => ([], .error e)
      | .ok (op2, _fds, _c, _d) =>
        if env.connectGuardoOk = false then ([], .error "connect to guardo sock failed")
        else
          let sent1 : List (Endpoint × MsgTag) := [(Endpoint.guardo, MsgTag.challengeRequest)]
          match env.challengeRead with
          | .threw e => (sent1, .error e)
          | .failed => (sent1, .ok none)
          | .got ch =>
            match get_credential env op2 ch with
            | (csent, .error e) => (sent1 ++ csent, .error e)
            | (csent, .ok none) => (sent1 ++ csent, .ok none)
            | (csent, .ok (some _cred)) =>
              let sent2 := sent1 ++ csent ++ [(Endpoint.guardo, MsgTag.elevationRequest)]
              match env.elevRead with
              | .threw e => (sent2, .error e)
              | .failed => (sent2, .ok none)
              | .got er =>
                if er.1.is_result_fd then
                  match er.2 with
                  | [] => (sent2, .ok none)
                  | f :: _ => (sent2, .ok (some f))
                else (sent2, .ok (some er.1.result))

/-- The `switch (syscall_number)` of `safe_hook` (lines 299-310): the
participation allow-list (note: no `SYS_faccessat` case there). -/
def safe_hook_allows (n : Int) : Bool :=
  n = SYS_open || n = SYS_openat || n = SYS_unlink || n = SYS_unlinkat ||
  n = SYS_access || n = SYS_socket || n = SYS_bind

/-- Observable outcome of one `safe_hook` invocation: its return code,
the final value of `*result` (`none` when never written), whether `hook`
was entered, and the network messages sent. -/
structure HookCall where
  ret : Int
  written : Option Int
  attempted : Bool
  sent : List (Endpoint × MsgTag)
deriving DecidableEq

/-- `safe_hook`: decline non-participating syscalls with 1; otherwise
store the real syscall's result in `*result`, stop unless it is
`-EACCES`/`-EPERM`, and run `hook` inside the catch-all `try` block.
`real_result` is what `syscall_no_intercept` returned. -/
def safe_hook (env : NegEnv) (real_result : Int) (n a0 a1 a2 a3 : Int) : HookCall :=
  if safe_hook_allows n = false then
    { ret := 1, written := none, attempted := false, sent := [] }
  else if real_result ≠ -EACCES ∧ real_result ≠ -EPERM then
    { ret := 0, written := some real_result, attempted := false, sent := [] }
  else
    match hook env n a0 a1 a2 a3 with
    | (sent, .error _) => { ret := 0, written := some real_result, attempted := true, sent := sent }
    | (sent, .ok none) => { ret := 0, written := some real_result, attempted := true, sent := sent }
    | (sent, .ok (some v)) => { ret := 0, written := some v, attempted := true, sent := sent }

/-- All descriptor-bearing arguments of the operation are resolved. -/
def allResolved (op : Operation) : Bool :=
  op.args.all fun a => !hasRawFd a

/-! ### Concrete instances used to exercise the model -/

def fdEnv0 : FdEnv :=
  { cwdPath := "/home/user", dupCwdFd := 5, procFdLink := fun _ => some "/srv/dir" }

/-- Negotiation that aborts at the challenge read. -/
def negEnvAbort : NegEnv :=
  { fdEnv := fdEnv0, perms := fun _ => 0, readString := fun _ => "p",
    readBytes := fun _ _ => [], connectGuardoOk := true, connectAgentOk := true,
    challengeRead := ReadOutcome.failed, credRead := ReadOutcome.failed,
    elevRead := ReadOutcome.failed }

/-- Negotiation where connecting to the elevation daemon throws. -/
def negEnvThrow : NegEnv :=
  { negEnvAbort with connectGuardoOk := false }

/-- Negotiation where the agent answers with a non-approved status. -/
def negEnvDenied : NegEnv :=
  { negEnvAbort with
    challengeRead := ReadOutcome.got { data := 7 },
    credRead := ReadOutcome.got { status := CredStatus.other 2, credential := { data := 0 } },
    elevRead := ReadOutcome.got ({ is_result_fd := false, result := 3 }, []) }

/-- Negotiation against a path with mode bits 0o644 (no exec bit). -/
def negEnvNoExec : NegEnv :=
  { negEnvAbort with perms := fun _ => 420, readString := fun _ => "/data/f" }

/-- An operation with repeated CWD sentinels, a plain descriptor, a
socket argument and pass-through arguments. -/
def opSample : Operation :=
  { syscall_num := 257,
    args := [Arg.dirFdArg (DirFd.fd (-100)), Arg.stringArg "f", Arg.dirFdArg (DirFd.fd 7),
             Arg.socketArg (some 9), Arg.intArg 3, Arg.dirFdArg (DirFd.path "/p"),
             Arg.dirFdArg (DirFd.fd (-100))] }

/-- An operation with no descriptor-bearing argument at all. -/
def opPlain : Operation :=
  { syscall_num := 41, args := [Arg.intArg 2, Arg.intArg 1, Arg.intArg 0] }

/-- What `marshal_fds fdEnv0 opSample` rewrites `opSample` into. -/
def opSampleResolved : Operation :=
  { syscall_num := 257,
    args := [Arg.dirFdArg (DirFd.path "/home/user"), Arg.stringArg "f",
             Arg.dirFdArg (DirFd.path "/srv/dir"), Arg.socketArg none, Arg.intArg 3,
             Arg.dirFdArg (DirFd.path "/p"), Arg.dirFdArg (DirFd.path "/home/user")] }

/-! ### Helper lemmas -/

theorem marshal_args_spec (env : FdEnv) :
    ∀ (args : List Arg) (fdCwd : Option Int) (as2 : List Arg) (fds : List Int)
      (c : Option Int) (d : Nat),
      fdCwd = none ∨ fdCwd = some env.dupCwdFd →
      marshal_args env fdCwd args = .ok (as2, fds, c, d) →
      as2 = args.map (rewriteArg env) ∧
      fds = args.filterMap (transplantValue env) ∧
      d = (if fdCwd.isNone && args.any isRawCwd then 1 else 0) := by
  intro args
  induction args with
  | nil =>
    intro fdCwd as2 fds c d _ h
    simp only [marshal_args, Except.ok.injEq, Prod.mk.injEq] at h
    obtain ⟨h1, h2, _, h4⟩ := h
    subst h1
    subst h2
    subst h4
    simp
  | cons a rest ih =>
    intro fdCwd as2 fds c d hinv h
    cases a with
    | intArg v =>
      simp only [marshal_args] at h
      cases hrec : marshal_args env fdCwd rest with
      | error e => rw [hrec] at h; exact Except.noConfusion h
      | ok r =>
        obtain ⟨as3, fds3, c3, d3⟩ := r
        rw [hrec] at h
        simp only [Except.ok.injEq, Prod.mk.injEq] at h
        obtain ⟨h1, h2, _, h4⟩ := h
        subst h1; subst h2; subst h4
        obtain ⟨e1, e2, e3⟩ := ih fdCwd as3 fds3 c3 d3 hinv hrec
        simp [rewriteArg, transplantValue, isRawCwd, e1, e2, e3]
    | stringArg s =>
      simp only [marshal_args] at h
      cases hrec : marshal_args env fdCwd rest with
      | error e => rw [hrec] at h; exact Except.noConfusion h
      | ok r =>
        obtain ⟨as3, fds3, c3, d3⟩ := r
        rw [hrec] at h
        simp only [Except.ok.injEq, Prod.mk.injEq] at h
        obtain ⟨h1, h2, _, h4⟩ := h
        subst h1; subst h2; subst h4
        obtain ⟨e1, e2, e3⟩ := ih fdCwd as3 fds3 c3 d3 hinv hrec
        simp [rewriteArg, transplantValue, isRawCwd, e1, e2, e3]
    | bytesArg b =>
      simp only [marshal_args] at h
      cases hrec : marshal_args env fdCwd rest with
      | error e => rw [hrec] at h; exact Except.noConfusion h
      | ok r =>
        obtain ⟨as3, fds3, c3, d3⟩ := r
        rw [hrec] at h
        simp only [Except.ok.injEq, Prod.mk.injEq] at h
        obtain ⟨h1, h2, _, h4⟩ := h
        subst h1; subst h2; subst h4
        obtain ⟨e1, e2, e3⟩ := ih fdCwd as3 fds3 c3 d3 hinv hrec
        simp [rewriteArg, transplantValue, isRawCwd, e1, e2, e3]
    | socketArg s =>
      simp only [marshal_args] at h
      cases hrec : marshal_args env fdCwd rest with
      | error e => rw [hrec] at h; exact Except.noConfusion h
      | ok r =>
        obtain ⟨as3, fds3, c3, d3⟩ := r
        rw [hrec] at h
        simp only [Except.ok.injEq, Prod.mk.injEq] at h
        obtain ⟨h1, h2, _, h4⟩ := h
        subst h1; subst h2; subst h4
        obtain ⟨e1, e2, e3⟩ := ih fdCwd as3 fds3 c3 d3 hinv hrec
        simp [rewriteArg, transplantValue, isRawCwd, e1, e2, e3]
    | dirFdArg df =>
      cases df with
      | path p =>
        simp only [marshal_args] at h
        cases hrec : marshal_args env fdCwd rest with
        | error e => rw [hrec] at h; exact Except.noConfusion h
        | ok r =>
          obtain ⟨as3, fds3, c3, d3⟩ := r
          rw [hrec] at h
          simp only [Except.ok.injEq, Prod.mk.injEq] at h
          obtain ⟨h1, h2, _, h4⟩ := h
          subst h1; subst h2; subst h4
          obtain ⟨e1, e2, e3⟩ := ih fdCwd as3 fds3 c3 d3 hinv hrec
          simp [rewriteArg, transplantValue, isRawCwd, e1, e2, e3]
      | fd nfd =>
        by_cases hn : nfd = AT_FDCWD
        · subst hn
          rcases hinv with hc | hc
          · subst hc
            simp only [marshal_args, eq_self_iff_true, if_true] at h
            by_cases hdup : env.dupCwdFd < 0
            · rw [if_pos hdup] at h
              exact Except.noConfusion h
            · rw [if_neg hdup] at h
              cases hrec : marshal_args env (some env.dupCwdFd) rest with
              | error e => rw [hrec] at h; exact Except.noConfusion h
              | ok r =>
                obtain ⟨as3, fds3, c3, d3⟩ := r
                rw [hrec] at h
                simp only [Except.ok.injEq, Prod.mk.injEq] at h
                obtain ⟨h1, h2, _, h4⟩ := h
                subst h1; subst h2; subst h4
                obtain ⟨e1, e2, e3⟩ := ih (some env.dupCwdFd) as3 fds3 c3 d3 (Or.inr rfl) hrec
                simp [rewriteArg, transplantValue, isRawCwd, e1, e2, e3]
          · subst hc
            simp only [marshal_args, eq_self_iff_true, if_true] at h
            cases hrec : marshal_args env (some env.dupCwdFd) rest with
            | error e => rw [hrec] at h; exact Except.noConfusion h
            | ok r =>
              obtain ⟨as3, fds3, c3, d3⟩ := r
              rw [hrec] at h
              simp only [Except.ok.injEq, Prod.mk.injEq] at h
              obtain ⟨h1, h2, _, h4⟩ := h
              subst h1; subst h2; subst h4
              obtain ⟨e1, e2, e3⟩ := ih (some env.dupCwdFd) as3 fds3 c3 d3 (Or.inr rfl) hrec
              simp [rewriteArg, transplantValue, isRawCwd, e1, e2, e3]
        · simp only [marshal_args, if_neg hn] at h
          cases hlink : env.procFdLink nfd with
          | none => rw [hlink] at h; exact Except.noConfusion h
          | some p =>
            rw [hlink] at h
            cases hrec : marshal_args env fdCwd rest with
            | error e => rw [hrec] at h; exact Except.noConfusion h
            | ok r =>
              obtain ⟨as3, fds3, c3, d3⟩ := r
              rw [hrec] at h
              simp only [Except.ok.injEq, Prod.mk.injEq] at h
              obtain ⟨h1, h2, _, h4⟩ := h
              subst h1; subst h2; subst h4
              obtain ⟨e1, e2, e3⟩ := ih fdCwd as3 fds3 c3 d3 hinv hrec
              simp [rewriteArg, transplantValue, isRawCwd, hn, hlink, e1, e2, e3]

theorem hasRawFd_rewriteArg (env : FdEnv) (a : Arg) :
    hasRawFd (rewriteArg env a) = false := by
  cases a with
  | dirFdArg df => cases df <;> simp [rewriteArg, hasRawFd]
  | socketArg s => simp [rewriteArg, hasRawFd]
  | intArg v => simp [rewriteArg, hasRawFd]
  | stringArg s => simp [rewriteArg, hasRawFd]
  | bytesArg b => simp [rewriteArg, hasRawFd]

theorem get_credential_sent_mem (env : NegEnv) (op : Operation) (ch : Challenge) :
    ∀ x ∈ (get_credential env op ch).1, x = (Endpoint.agent, MsgTag.credentialRequest) := by
  intro x hx
  unfold get_credential at hx
  by_cases hc : env.connectAgentOk = false
  · simp [hc] at hx
  · rw [if_neg hc] at hx
    cases hcr : env.credRead with
    | threw e => rw [hcr] at hx; simpa using hx
    | failed => rw [hcr] at hx; simpa using hx
    | got resp =>
      rw [hcr] at hx
      by_cases hs : resp.status = CredStatus.approved <;> simp [hs] at hx <;> exact hx

theorem get_credential_no_cred (env : NegEnv) (op : Operation) (ch : Challenge)
    (resp : CredentialResponse)
    (hread : env.credRead = ReadOutcome.got resp)
    (hst : resp.status ≠ CredStatus.approved) :
    ∀ cs cred, get_credential env op ch ≠ (cs, Except.ok (some cred)) := by
  intro cs cred hcontra
  unfold get_credential at hcontra
  by_cases hc : env.connectAgentOk = false
  · rw [if_pos hc] at hcontra
    simp at hcontra
  · rw [if_neg hc, hread] at hcontra
    dsimp only at hcontra
    rw [if_neg hst] at hcontra
    simp at hcontra

theorem hook_no_elev_sent (env : NegEnv) (resp : CredentialResponse)
    (hread : env.credRead = ReadOutcome.got resp)
    (hst : resp.status ≠ CredStatus.approved) :
    ∀ n a0 a1 a2 a3 : Int,
      (Endpoint.guardo, MsgTag.elevationRequest) ∉ (hook env n a0 a1 a2 a3).1 := by
  intro n a0 a1 a2 a3 hmem
  unfold hook at hmem
  cases hb : build_op env n a0 a1 a2 a3 with
  | none => rw [hb] at hmem; simp at hmem
  | some pr =>
    obtain ⟨sh, op⟩ := pr
    rw [hb] at hmem
    dsimp only at hmem
    by_cases hsh : sh = false
    · rw [if_pos hsh] at hmem; simp at hmem
    · rw [if_neg hsh] at hmem
      cases hm : marshal_fds env.fdEnv op with
      | error e => rw [hm] at hmem; simp at hmem
      | ok r =>
        obtain ⟨op2, fds2, c2, d2⟩ := r
        rw [hm] at hmem
        dsimp only at hmem
        by_cases hg : env.connectGuardoOk = false
        · rw [if_pos hg] at hmem; simp at hmem
        · rw [if_neg hg] at hmem
          cases hch : env.challengeRead with
          | threw e => rw [hch] at hmem; simp at hmem
          | failed => rw [hch] at hmem; simp at hmem
          | got ch =>
            rw [hch] at hmem
            dsimp only at hmem
            cases hgc : get_credential env op2 ch with
            | mk csent cres =>
              cases cres with
              | error e =>
                rw [hgc] at hmem
                simp only [List.mem_append] at hmem
                rcases hmem with hmem | hmem
                · simp at hmem
                · exact absurd (get_credential_sent_mem env op2 ch _ (by rw [hgc]; exact hmem))
                    (by simp)
              | ok ocred =>
                cases ocred with
                | none =>
                  rw [hgc] at hmem
                  simp only [List.mem_append] at hmem
                  rcases hmem with hmem | hmem
                  · simp at hmem
                  · exact absurd (get_credential_sent_mem env op2 ch _ (by rw [hgc]; exact hmem))
                      (by simp)
                | some cred =>
                  exact get_credential_no_cred env op2 ch resp hread hst csent cred hgc

theorem be32_length (n : Nat) : (be32 n).length = 4 := by
  simp [be32]

theorem be32ToNat_be32 (n : Nat) (h : n < 2 ^ 32) : be32ToNat (be32 n) = n := by
  simp only [be32, be32ToNat]
  omega

theorem read_full_append (k : Nat) (xs ys : List Nat) (h : xs.length = k) :
    read_full k (xs ++ ys) = .ok (xs, ys) := by
  subst h
  rw [read_full]
  rw [if_neg (by simp)]
  rw [List.take_left, List.drop_left]

theorem read_expected_create {α : Type} (parse : List Nat → Option α)
    (tagW expected : Nat) (payload : List Nat)
    (hlen : payload.length + 1 < 2 ^ 31) :
    read_expected_msg parse expected (create_raw_msg tagW payload) =
      (if signedChar tagW = (expected % 256 : Int) then
        match parse payload with
        | none => Except.ok none
        | some m => Except.ok (some m)
      else Except.ok none) := by
  have h32 : (payload.length + 1) % 2 ^ 32 = payload.length + 1 := by omega
  have hrf1 : read_full 4 (be32 (payload.length + 1) ++ (tagW % 256) :: payload) =
      .ok (be32 (payload.length + 1), (tagW % 256) :: payload) :=
    read_full_append 4 _ _ (be32_length _)
  have hsz : intToSizeT (ntohlInt (be32 (payload.length + 1))) = payload.length + 1 := by
    unfold intToSizeT ntohlInt
    rw [be32ToNat_be32 _ (by omega)]
    rw [if_pos (by omega)]
    omega
  have hrf2 : read_full (payload.length + 1) ((tagW % 256) :: payload) =
      .ok ((tagW % 256) :: payload, []) := by
    have h2 := read_full_append (payload.length + 1) ((tagW % 256) :: payload) []
      (by simp)
    simpa using h2
  have hsc : signedChar (tagW % 256) = signedChar tagW := by
    unfold signedChar
    rw [Nat.mod_mod_of_dvd tagW (dvd_refl 256)]
    by_cases hcase : tagW % 256 < 128
    · rw [if_pos hcase, if_pos hcase]
      omega
    · rw [if_neg hcase, if_neg hcase]
      omega
  unfold create_raw_msg
  rw [h32, List.append_assoc, List.singleton_append]
  unfold read_expected_msg
  rw [hrf1]
  dsimp only
  rw [hsz, hrf2]
  dsimp only
  rw [hsc]
  by_cases hb : signedChar tagW = (expected % 256 : Int)
  · rw [if_pos hb, if_neg (not_not_intro hb)]
  · rw [if_neg hb, if_pos hb]


/-! ### The claims -/

/-- C1: for a participating syscall whose real result is a
permission-denied value, any abort of the negotiation (`hook` returning
without writing `*result`: challenge failure, credential failure or
denial, elevation protocol failure, missing descriptor) leaves
`safe_hook`'s final result equal to the original permission-denied value,
with return code 0. -/
theorem abort_preserves_denied_result (env : NegEnv) (real n a0 a1 a2 a3 : Int)
    (hn : safe_hook_allows n = true)
    (hperm : real = -EACCES ∨ real = -EPERM)
    (habort : (hook env n a0 a1 a2 a3).2 = Except.ok none) :
    (safe_hook env real n a0 a1 a2 a3).ret = 0 ∧
    (safe_hook env real n a0 a1 a2 a3).written = some real := by
  have hperm2 : ¬(real ≠ -EACCES ∧ real ≠ -EPERM) := by
    rcases hperm with h | h <;> simp [h]
  unfold safe_hook
  rw [hn, if_neg (by simp), if_neg hperm2]
  cases hh : hook env n a0 a1 a2 a3 with
  | mk sent out =>
    rw [hh] at habort
    simp only at habort
    subst habort
    simp

/-- Witness for C1: a negotiation aborting at the challenge read. -/
theorem abort_preserves_denied_result_witness :
    (safe_hook negEnvAbort (-EACCES) SYS_socket 0 0 0 0).ret = 0 ∧
    (safe_hook negEnvAbort (-EACCES) SYS_socket 0 0 0 0).written = some (-EACCES) :=
  abort_preserves_denied_result negEnvAbort (-EACCES) SYS_socket 0 0 0 0 rfl
    (Or.inl rfl) rfl

/-- C2 (code bug in the source): `safe_hook`'s participation switch
omits `SYS_faccessat` although `hook`'s switch handles it (and the
comment above `hook`'s switch demands the two stay in sync), so
`safe_hook` declines faccessat — return 1, pass-through, no elevation —
while the other seven allow-listed syscalls do participate. -/
theorem faccessat_missing_from_filter (env : NegEnv) (a0 a1 a2 a3 : Int) :
    safe_hook_allows SYS_faccessat = false ∧
    hook_handles SYS_faccessat = true ∧
    (build_op env SYS_faccessat a0 a1 a2 a3).isSome = true ∧
    safe_hook env (-EACCES) SYS_faccessat a0 a1 a2 a3 =
      { ret := 1, written := none, attempted := false, sent := [] } ∧
    (safe_hook_allows SYS_open && safe_hook_allows SYS_openat &&
     safe_hook_allows SYS_unlink && safe_hook_allows SYS_unlinkat &&
     safe_hook_allows SYS_access && safe_hook_allows SYS_socket &&
     safe_hook_allows SYS_bind) = true := by
  refine ⟨by decide, by decide, ?_, ?_, by decide⟩
  · unfold build_op
    dsimp only
    rw [if_neg (by decide), if_neg (by decide), if_neg (by decide), if_neg (by decide),
        if_neg (by decide), if_pos rfl]
    rfl
  · unfold safe_hook
    rw [if_pos (by decide)]

/-- C3: for a participating syscall whose real result is not a
permission-denied value, `safe_hook` returns 0 with the real result
unmodified and never enters the elevation path (nothing attempted,
nothing sent). -/
theorem nonpermission_result_passthrough (env : NegEnv) (real n a0 a1 a2 a3 : Int)
    (hn : safe_hook_allows n = true)
    (hperm : real ≠ -EACCES ∧ real ≠ -EPERM) :
    safe_hook env real n a0 a1 a2 a3 =
      { ret := 0, written := some real, attempted := false, sent := [] } := by
  unfold safe_hook
  rw [hn, if_neg (by simp), if_pos hperm]

/-- Witness for C3: a successful `open` (real result 4) passes through. -/
theorem nonpermission_result_passthrough_witness :
    safe_hook negEnvAbort 4 SYS_open 0 0 0 0 =
      { ret := 0, written := some 4, attempted := false, sent := [] } :=
  nonpermission_result_passthrough negEnvAbort 4 SYS_open 0 0 0 0 rfl (by decide)

/-- C4: an exception thrown anywhere inside `hook` is caught at the
`safe_hook` boundary: the filter still returns 0 and the final result is
the real-syscall result stored before `hook` ran. -/
theorem hook_exception_contained (env : NegEnv) (real n a0 a1 a2 a3 : Int) (e : String)
    (hn : safe_hook_allows n = true)
    (hperm : real = -EACCES ∨ real = -EPERM)
    (hthrow : (hook env n a0 a1 a2 a3).2 = Except.error e) :
    (safe_hook env real n a0 a1 a2 a3).ret = 0 ∧
    (safe_hook env real n a0 a1 a2 a3).written = some real := by
  have hperm2 : ¬(real ≠ -EACCES ∧ real ≠ -EPERM) := by
    rcases hperm with h | h <;> simp [h]
  unfold safe_hook
  rw [hn, if_neg (by simp), if_neg hperm2]
  cases hh : hook env n a0 a1 a2 a3 with
  | mk sent out =>
    rw [hh] at hthrow
    simp only at hthrow
    subst hthrow
    simp

/-- Witness for C4: connecting to the elevation daemon throws. -/
theorem hook_exception_contained_witness :
    (safe_hook negEnvThrow (-EPERM) SYS_socket 0 0 0 0).ret = 0 ∧
    (safe_hook negEnvThrow (-EPERM) SYS_socket 0 0 0 0).written = some (-EPERM) :=
  hook_exception_contained negEnvThrow (-EPERM) SYS_socket 0 0 0 0
    "connect to guardo sock failed" rfl (Or.inr rfl) rfl

/-- C5: after a successful `marshal_fds`, every argument is the resolved
form of the original — a raw-descriptor `DirFdArg` becomes a `Path` (the
current working directory for the `AT_FDCWD` sentinel, the
`/proc/self/fd` symlink target otherwise) and every `SocketArg` has its
embedded fd cleared — so no argument still carries a raw descriptor. -/
theorem marshal_fds_resolves_all (env : FdEnv) (op op2 : Operation)
    (fds : List Int) (c : Option Int) (d : Nat)
    (h : marshal_fds env op = .ok (op2, fds, c, d)) :
    op2.args = op.args.map (rewriteArg env) ∧ allResolved op2 = true := by
  unfold marshal_fds at h
  cases hrec : marshal_args env none op.args with
  | error e => rw [hrec] at h; exact Except.noConfusion h
  | ok r =>
    obtain ⟨as2, fds2, c2, d2⟩ := r
    rw [hrec] at h
    simp only [Except.ok.injEq, Prod.mk.injEq] at h
    obtain ⟨h1, _, _, _⟩ := h
    obtain ⟨e1, _, _⟩ := marshal_args_spec env op.args none as2 fds2 c2 d2 (Or.inl rfl) hrec
    have hargs : op2.args = as2 := by rw [← h1]
    refine ⟨by rw [hargs, e1], ?_⟩
    unfold allResolved
    rw [hargs, e1]
    simp [List.all_map, Function.comp, hasRawFd_rewriteArg]

/-- Witness for C5 on an operation with sentinel, plain and socket fds. -/
theorem marshal_fds_resolves_all_witness :
    opSampleResolved.args = opSample.args.map (rewriteArg fdEnv0) ∧
    allResolved opSampleResolved = true :=
  marshal_fds_resolves_all fdEnv0 opSample opSampleResolved [5, 7, 9, 5] (some 5) 1 rfl

/-- C6: the transplant list of `marshal_fds` has exactly one entry per
raw `DirFdArg`/`SocketArg`, in the order the walk meets them (`AT_FDCWD`
entries carry the lazily duplicated cwd descriptor, other `DirFdArg`s
their own fd, `SocketArg`s their embedded fd), and the cwd duplication
runs at most once per operation — exactly once when a raw sentinel
occurs at all, reused for repeats. -/
theorem marshal_fds_transplant_order (env : FdEnv) (op op2 : Operation)
    (fds : List Int) (c : Option Int) (d : Nat)
    (h : marshal_fds env op = .ok (op2, fds, c, d)) :
    fds = op.args.filterMap (transplantValue env) ∧
    d = (if op.args.any isRawCwd then 1 else 0) ∧
    d ≤ 1 := by
  unfold marshal_fds at h
  cases hrec : marshal_args env none op.args with
  | error e => rw [hrec] at h; exact Except.noConfusion h
  | ok r =>
    obtain ⟨as2, fds2, c2, d2⟩ := r
    rw [hrec] at h
    simp only [Except.ok.injEq, Prod.mk.injEq] at h
    obtain ⟨_, h2, _, h4⟩ := h
    subst h2
    subst h4
    obtain ⟨_, e2, e3⟩ := marshal_args_spec env op.args none as2 fds2 c2 d2 (Or.inl rfl) hrec
    refine ⟨e2, ?_, ?_⟩
    · simpa using e3
    · rw [e3]
      split <;> omega

/-- Witness for C6: transplant order `[cwd, 7, 9, cwd]`, one duplication. -/
theorem marshal_fds_transplant_order_witness :
    [5, 7, 9, 5] = opSample.args.filterMap (transplantValue fdEnv0) ∧
    (1 : Nat) = (if opSample.args.any isRawCwd then 1 else 0) ∧
    (1 : Nat) ≤ 1 :=
  marshal_fds_transplant_order fdEnv0 opSample opSampleResolved [5, 7, 9, 5] (some 5) 1 rfl

/-- C7: an `access`/`faccessat` check with mode `X_OK` on a path with no
exec permission bit for owner, group or other is rejected by the encoder
(`create_access_op` returns false): `hook` returns before any connect or
send (no network request), and under a permission-denied real result the
filter leaves the original error standing. -/
theorem access_exec_check_filtered (env : NegEnv) (real a0 a1 a2 a3 b0 b1 b2 b3 : Int)
    (hmode : a1 = X_OK)
    (hmodeb : b2 = X_OK)
    (hx : noExecBits (env.perms (env.readString a0)) = true)
    (hxb : noExecBits (env.perms (env.readString b1)) = true)
    (hreal : real = -EACCES ∨ real = -EPERM) :
    (create_access_op env.perms AT_FDCWD (env.readString a0) a1 0
      { syscall_num := SYS_access, args := [] }).1 = false ∧
    hook env SYS_access a0 a1 a2 a3 = ([], Except.ok none) ∧
    hook env SYS_faccessat b0 b1 b2 b3 = ([], Except.ok none) ∧
    (safe_hook env real SYS_access a0 a1 a2 a3).sent = [] ∧
    (safe_hook env real SYS_access a0 a1 a2 a3).written = some real := by
  have hca : ∀ dfd flags (op0 : Operation),
      create_access_op env.perms dfd (env.readString a0) a1 flags op0 = (false, op0) := by
    intro dfd flags op0
    unfold create_access_op
    rw [if_pos ⟨hmode, hx⟩]
  have hcb : ∀ dfd (op0 : Operation),
      create_access_op env.perms dfd (env.readString b1) b2 b3 op0 = (false, op0) := by
    intro dfd op0
    unfold create_access_op
    rw [if_pos ⟨hmodeb, hxb⟩]
  have hba : build_op env SYS_access a0 a1 a2 a3 =
      some (false, { syscall_num := SYS_access, args := [] }) := by
    unfold build_op
    dsimp only
    rw [if_neg (by decide), if_neg (by decide), if_neg (by decide), if_neg (by decide),
        if_pos rfl, hca]
  have hbb : build_op env SYS_faccessat b0 b1 b2 b3 =
      some (false, { syscall_num := SYS_faccessat, args := [] }) := by
    unfold build_op
    dsimp only
    rw [if_neg (by decide), if_neg (by decide), if_neg (by decide), if_neg (by decide),
        if_neg (by decide), if_pos rfl, hcb]
  have hha : hook env SYS_access a0 a1 a2 a3 = ([], Except.ok none) := by
    unfold hook
    rw [hba]
    dsimp only
    rw [if_pos rfl]
  have hhb : hook env SYS_faccessat b0 b1 b2 b3 = ([], Except.ok none) := by
    unfold hook
    rw [hbb]
    dsimp only
    rw [if_pos rfl]
  have hperm2 : ¬(real ≠ -EACCES ∧ real ≠ -EPERM) := by
    rcases hreal with h | h <;> simp [h]
  have hsh : safe_hook env real SYS_access a0 a1 a2 a3 =
      { ret := 0, written := some real, attempted := true, sent := [] } := by
    unfold safe_hook
    rw [if_neg (by decide), if_neg hperm2, hha]
  exact ⟨by rw [hca], hha, hhb, by rw [hsh], by rw [hsh]⟩

/-- Witness for C7: mode bits 0o644, an execute access check. -/
theorem access_exec_check_filtered_witness :
    hook negEnvNoExec SYS_access 0 1 0 0 = ([], Except.ok none) ∧
    (safe_hook negEnvNoExec (-EACCES) SYS_access 0 1 0 0).written = some (-EACCES) :=
  ⟨(access_exec_check_filtered negEnvNoExec (-EACCES) 0 1 0 0 0 0 1 0 rfl rfl rfl rfl
      (Or.inl rfl)).2.1,
   (access_exec_check_filtered negEnvNoExec (-EACCES) 0 1 0 0 0 0 1 0 rfl rfl rfl rfl
      (Or.inl rfl)).2.2.2.2⟩

/-- C8: when the received `CredentialResponse` has a status other than
`APPROVED`, `get_credential` returns failure (no credential) and the
orchestrator never sends an `ElevationRequest` on the elevation-daemon
connection, whatever the syscall and arguments. -/
theorem unapproved_credential_no_elevation (env : NegEnv) (op : Operation)
    (ch : Challenge) (resp : CredentialResponse) (n a0 a1 a2 a3 : Int)
    (hconn : env.connectAgentOk = true)
    (hread : env.credRead = ReadOutcome.got resp)
    (hst : resp.status ≠ CredStatus.approved) :
    (get_credential env op ch).2 = Except.ok none ∧
    (Endpoint.guardo, MsgTag.elevationRequest) ∉ (hook env n a0 a1 a2 a3).1 := by
  constructor
  · unfold get_credential
    rw [if_neg (by rw [hconn]; simp), hread]
    dsimp only
    rw [if_neg hst]
  · exact hook_no_elev_sent env resp hread hst n a0 a1 a2 a3

/-- Witness for C8: the agent answers with a non-approved status. -/
theorem unapproved_credential_no_elevation_witness :
    (get_credential negEnvDenied opPlain { data := 7 }).2 = Except.ok none ∧
    (Endpoint.guardo, MsgTag.elevationRequest) ∉ (hook negEnvDenied SYS_open 0 0 0 0).1 :=
  unapproved_credential_no_elevation negEnvDenied opPlain { data := 7 }
    { status := CredStatus.other 2, credential := { data := 0 } } SYS_open 0 0 0 0
    rfl rfl (by decide)

/-- C9 (counterexample): the round-trip fails for tag 200 — the frame is
built correctly, but `read_expected_msg` compares `packet[0]` as a
signed char, which sign-extends 200 to -56 and never equals the unsigned
expected tag, so the read reports failure instead of reproducing the
message. -/
theorem read_create_high_tag_mismatch :
    read_expected_msg (fun l => (some l : Option (List Nat))) 200
      (create_raw_msg 200 [1, 2, 3]) = Except.ok none ∧
    read_expected_msg (fun l => (some l : Option (List Nat))) 200
      (create_raw_msg 200 [1, 2, 3]) ≠ Except.ok (some [1, 2, 3]) := by
  refine ⟨rfl, ?_⟩
  intro hcontra
  rw [show read_expected_msg (fun l => (some l : Option (List Nat))) 200
      (create_raw_msg 200 [1, 2, 3]) = Except.ok none from rfl] at hcontra
  exact Option.noConfusion (Except.ok.inj hcontra)

/-- C9 (amended): for every tag below 128 and every serializable message
whose payload keeps the signed 32-bit length positive, the frame is
`[4-byte BE length][tag][payload]` with length = payload size + 1, and
`read_expected_msg` with the same expected tag reproduces the message,
while a different expected tag or a payload that fails to parse makes it
report failure (return false) rather than abort. -/
theorem framing_roundtrip {α : Type} (serialize : α → List Nat)
    (parse : List Nat → Option α) (tag : Nat) (m : α)
    (hrt : parse (serialize m) = some m)
    (htag : tag < 128)
    (hlen : (serialize m).length + 1 < 2 ^ 31) :
    create_raw_msg tag (serialize m) =
      be32 ((serialize m).length + 1) ++ tag :: serialize m ∧
    read_expected_msg parse tag (create_raw_msg tag (serialize m)) =
      Except.ok (some m) ∧
    (∀ expected2 : Nat, expected2 < 256 → expected2 ≠ tag →
      read_expected_msg parse expected2 (create_raw_msg tag (serialize m)) =
        Except.ok none) ∧
    (∀ bad : List Nat, parse bad = none → bad.length + 1 < 2 ^ 31 →
      read_expected_msg parse tag (create_raw_msg tag bad) = Except.ok none) := by
  have htag256 : tag % 256 = tag := Nat.mod_eq_of_lt (by omega)
  have hsc : signedChar tag = (tag : Int) := by
    unfold signedChar
    rw [if_pos (by omega)]
    omega
  refine ⟨?_, ?_, ?_, ?_⟩
  · unfold create_raw_msg
    rw [Nat.mod_eq_of_lt (by omega), htag256, List.append_assoc, List.singleton_append]
  · rw [read_expected_create parse tag tag (serialize m) hlen]
    rw [if_pos (by rw [hsc]; omega), hrt]
  · intro expected2 h256 hne
    rw [read_expected_create parse tag expected2 (serialize m) hlen]
    rw [if_neg (by rw [hsc]; omega)]
  · intro bad hbad hblen
    rw [read_expected_create parse tag tag bad hblen]
    rw [if_pos (by rw [hsc]; omega), hbad]

/-- Witness for C9 (amended) at tag 5, payload [9, 8]. -/
theorem framing_roundtrip_witness :
    read_expected_msg (fun l => (some l : Option (List Nat))) 5
      (create_raw_msg 5 [9, 8]) = Except.ok (some [9, 8]) :=
  (framing_roundtrip (fun l => l) (fun l => some l) 5 [9, 8] rfl (by decide)
    (by decide)).2.1

/-- C10: `user_runtime_dir` needs at least one of `XDG_RUNTIME_DIR` and
`HOME`: under that precondition it is well-defined and falls back from
the former to the latter; with both absent it reaches the
`std::string(nullptr)` branch (undefined behavior, modelled as `none`). -/
theorem user_runtime_dir_fallback (xdg home : Option String)
    (h : xdg.isSome = true ∨ home.isSome = true) :
    (user_runtime_dir xdg home).isSome = true ∧
    user_runtime_dir xdg home = (if xdg.isSome then xdg else home) ∧
    user_runtime_dir none none = none := by
  cases xdg <;> cases home <;> simp [user_runtime_dir] at h ⊢

/-- Witness for C10: only `HOME` set. -/
theorem user_runtime_dir_fallback_witness :
    (user_runtime_dir none (some "/home/u")).isSome = true ∧
    user_runtime_dir none (some "/home/u") =
      (if (none : Option String).isSome then none else some "/home/u") ∧
    user_runtime_dir none none = none :=
  user_runtime_dir_fallback none (some "/home/u") (Or.inr rfl)

end GuardianAgent
